import Mathlib

/-
Verification development for the Wasatch.VCPP spectrometer driver.

Shallow embedding of the relevant functions of
  WasatchVCPPLib/Spectrometer.cpp and WasatchVCPPLib/WasatchVCPPWrapper.cpp.
Machine integers are modeled as Nat / Int with explicit masking where the
source masks; byte buffers are lists of Nat (each entry one byte).
-/

namespace WasatchVCPP

/-- Result codes from include/WasatchVCPP.h. -/
def WP_SUCCESS : Int := 0

/-- Generic failure code from include/WasatchVCPP.h. -/
def WP_ERROR : Int := -1

/-- Distinct code for an output buffer that is too small. -/
def WP_ERROR_INSUFFICIENT_STORAGE : Int := -3

/-- Minimum control-transfer payload length for the ARM device family
    (Spectrometer.cpp, `const int MIN_ARM_LEN = 8`). -/
def MIN_ARM_LEN : Nat := 8

/-- Spectrometer.cpp, `unsigned long MAX_UINT24 = 16777216`. -/
def MAX_UINT24 : Nat := 16777216

/-- Spectrometer.cpp `isSuccess(opcode, result)`: the body ignores both
    arguments and returns true unconditionally (the source carries a todo
    about using the PID to determine a real result code). -/
def isSuccess (opcode : Nat) (result : Int) : Bool := true

/-- Spectrometer.cpp `clamp(value, min, max)` on unsigned longs. -/
def clamp (value mn mx : Nat) : Nat :=
  if value < mn then mn
  else if value > mx then mx
  else value

/-- Observable outcome of `setIntegrationTimeMS`: the stored member
    `integrationTimeMS`, the two 16-bit words handed to `sendCmd(0xb2, lsw, msw)`,
    and the boolean returned to the caller. -/
structure SetIntegrationResult where
  integrationTimeMS : Nat
  lsw : Nat
  msw : Nat
  ok : Bool
deriving DecidableEq, Repr

/-- Spectrometer.cpp `setIntegrationTimeMS(ms)`.  `transferResult` is the
    value `usb_control_msg` returned for the underlying control transfer. -/
def setIntegrationTimeMS (ms : Nat) (transferResult : Int) : SetIntegrationResult :=
  let ms' := clamp ms 1 (MAX_UINT24 - 1)
  { integrationTimeMS := ms'
    lsw := ms' &&& 0xffff
    msw := (ms' >>> 16) &&& 0x00ff
    ok := isSuccess 0xb2 transferResult }

/-- Spectrometer.cpp `setLaserEnable(flag)`: single-byte on/off word and the
    boolean returned to the caller. -/
def setLaserEnable (flag : Bool) (transferResult : Int) : Nat × Bool :=
  (if flag then 1 else 0, isSuccess 0xbe transferResult)

/-- Word computed by Spectrometer.cpp `setDetectorGain` / `setDetectorGainOdd`
    after the domain guard, with the gain value modeled as an exact rational:
    `msb = (int)value & 0xff`, `lsb = (int)((value - msb) * 256) & 0xff`,
    `word = (msb << 8) | lsb`.  The C `(int)` casts truncate toward zero;
    both operands are nonnegative on the guarded domain [0, 256), where
    truncation coincides with the floor used here. -/
def gainWord (value : ℚ) : Nat :=
  let msb := ⌊value⌋.toNat &&& 0xff
  let lsb := (⌊(value - (msb : ℚ)) * 256⌋).toNat &&& 0xff
  (msb <<< 8) ||| lsb

/-- Spectrometer.cpp `setDetectorGain(value)`: out-of-domain input returns
    false before any transfer; otherwise the encoded word is sent with
    opcode 0xb7.  `none` models the rejected call (no transfer attempted),
    `some w` the word handed to `sendCmd`. -/
def setDetectorGain (value : ℚ) : Option Nat :=
  if value < 0 ∨ 256 ≤ value then none
  else some (gainWord value)

/-- Spectrometer.cpp `setDetectorGainOdd(value)`: identical computation,
    sent with opcode 0x9d. -/
def setDetectorGainOdd (value : ℚ) : Option Nat :=
  if value < 0 ∨ 256 ≤ value then none
  else some (gainWord value)

/-- Decoding of the Q8.8 gain word: integer part from the high byte,
    fractional numerator from the low byte (the spec's reading of the wire
    format, used for the round-trip property). -/
def gainDecode (word : Nat) : ℚ :=
  ((word >>> 8 : Nat) : ℚ) + ((word &&& 0xff : Nat) : ℚ) / 256

/-- The gain encoding exactly as the spec words it: high byte the integer
    part, low byte `round((value - intPart) * 256)`.  Stated for comparison
    with `gainWord`, the encoding the source actually computes. -/
def gainWordSpecClaim (value : ℚ) : Nat :=
  let intPart := ⌊value⌋.toNat
  (intPart <<< 8) ||| (round ((value - (intPart : ℚ)) * 256)).toNat

/-- Spectrometer.cpp `setDetectorOffset(value)`: the int16 argument is
    reinterpreted bit-for-bit as uint16 via `*((uint16_t*) &value)`; an int16
    holding v is stored as the two's complement pattern, whose unsigned
    reading is v mod 2^16.  First component: the word handed to
    `sendCmd(0xb6, word)`; second: the boolean result. -/
def setDetectorOffset (value : Int) (transferResult : Int) : Nat × Bool :=
  ((value % 65536).toNat, isSuccess 0xb6 transferResult)

/-- Spectrometer.cpp `setDetectorOffsetOdd(value)`: identical reinterpretation,
    sent with opcode 0x9c. -/
def setDetectorOffsetOdd (value : Int) (transferResult : Int) : Nat × Bool :=
  ((value % 65536).toNat, isSuccess 0x9c transferResult)

/-- Calibration fields consumed by the TEC settors. -/
structure EEPROMTec where
  hasCooling : Bool
  minTemperatureDegC : Int
  maxTemperatureDegC : Int
  degCToDACCoeff0 : ℚ
  degCToDACCoeff1 : ℚ
  degCToDACCoeff2 : ℚ

/-- Session state touched by the TEC settors: the calibration record, the
    `detectorTECSetpointHasBeenSet` gate, and the ordered list of control
    transfers (opcode, value word) sent so far. -/
structure TECState where
  eeprom : EEPROMTec
  detectorTECSetpointHasBeenSet : Bool
  transfers : List (Nat × Nat)

/-- The setpoint word of `setDetectorTECSetpointDegC`:
    `((uint16_t)(dac + 0.5)) & 0xfff` with
    `dac = d0 + d1*degC + d2*degC^2`.  The uint16 cast truncates toward zero,
    modeled as floor (they agree on the nonnegative DAC range; a negative
    operand would be undefined behaviour in the source). -/
def tecDACWord (e : EEPROMTec) (degC : Int) : Nat :=
  (⌊e.degCToDACCoeff0 + e.degCToDACCoeff1 * degC
      + e.degCToDACCoeff2 * degC * degC + 1 / 2⌋).toNat &&& 0xfff

/-- Spectrometer.cpp `setDetectorTECSetpointDegC(degC)`: rejected without a
    transfer when cooling is absent or degC lies outside the calibrated
    [min, max]; otherwise the DAC word goes out with opcode 0xd8 and the
    setpoint gate is marked set (regardless of the transfer outcome —
    `isSuccess` ignores it, so the result argument is irrelevant and 0 is
    passed). -/
def setDetectorTECSetpointDegC (st : TECState) (degC : Int) : Bool × TECState :=
  if st.eeprom.hasCooling = false then (false, st)
  else if degC < st.eeprom.minTemperatureDegC ∨ st.eeprom.maxTemperatureDegC < degC
  then (false, st)
  else
    (isSuccess 0xd8 0,
     { st with
        detectorTECSetpointHasBeenSet := true
        transfers := st.transfers ++ [(0xd8, tecDACWord st.eeprom degC)] })

/-- Spectrometer.cpp `setTECEnable(flag)`: fails immediately without a
    transfer when cooling is absent; if no setpoint was ever set, first
    drives the setpoint to the calibrated minimum, then sends the enable
    word with opcode 0xd6. -/
def setTECEnable (st : TECState) (flag : Bool) : Bool × TECState :=
  if st.eeprom.hasCooling = false then (false, st)
  else
    let st1 := if st.detectorTECSetpointHasBeenSet = false
               then (setDetectorTECSetpointDegC st st.eeprom.minTemperatureDegC).2
               else st
    (isSuccess 0xd6 0,
     { st1 with transfers := st1.transfers ++ [(0xd6, if flag then 1 else 0)] })

/-- Spectrometer.cpp `sendCmd`: the payload actually handed to
    `usb_control_msg`.  `none` models `data == nullptr` (the default
    argument); when the device family is ARM that case substitutes a
    zero-filled MIN_ARM_LEN stack buffer instead of a zero-length transfer. -/
def sendCmdPayload (isARM : Bool) (data : Option (List Nat)) : List Nat :=
  match data with
  | none => if isARM then List.replicate MIN_ARM_LEN 0 else []
  | some d => d

/-- Spectrometer.cpp `getCmd`: the length requested from the device after the
    ARM floor `len = max(MIN_ARM_LEN, len)`. -/
def getCmdRequestLen (isARM : Bool) (len : Nat) : Nat :=
  if isARM then max MIN_ARM_LEN len else len

/-- Spectrometer.cpp `getCmd`: bytes handed back to the caller, where
    `result` is the byte count `usb_control_msg` returned and `data i` the
    i-th byte of the receive buffer.  The copy loop
    `for (i = 0; i < result; i++)` runs zero times when the result is
    negative or zero, yielding the empty list. -/
def getCmdResult (result : Int) (data : Nat → Nat) : List Nat :=
  (List.range result.toNat).map data

/-- Spectrometer.cpp `getCmd` end to end: `transfer` maps the requested
    length to the `usb_control_msg` result and receive-buffer contents. -/
def getCmd (isARM : Bool) (len : Nat) (transfer : Nat → Int × (Nat → Nat)) :
    List Nat :=
  getCmdResult (transfer (getCmdRequestLen isARM len)).1
    (transfer (getCmdRequestLen isARM len)).2

/-- Copy loop shared by the wrapper's boundary getters
    (WasatchVCPPWrapper.cpp `exportString` and the array getters): walk the
    source; at each index below the destination length copy one element,
    at the first index not below it return the insufficient-storage code.
    The destination buffer is modeled as a list whose length is the declared
    size `len`. -/
def copyToBuffer {α : Type} : List α → Nat → List α → Int × List α
  | [], _, buf => (WP_SUCCESS, buf)
  | x :: xs, i, buf =>
      if i < buf.length then copyToBuffer xs (i + 1) (buf.set i x)
      else (WP_ERROR_INSUFFICIENT_STORAGE, buf)

/-- WasatchVCPPWrapper.cpp `exportString(s, buf, len)`: memset zeroes the
    destination, then the copy loop runs. -/
def exportString (s : List Nat) (len : Nat) : Int × List Nat :=
  copyToBuffer s 0 (List.replicate len 0)

/-- WasatchVCPPWrapper.cpp `wp_get_wavelengths`, the copy loop (the
    session-lookup guard above it is outside the modeled fragment): copies
    the session's wavelength array into the caller's buffer, modeled as the
    list `buf` of the declared length. -/
def wp_get_wavelengths (wavelengths : List ℚ) (buf : List ℚ) : Int × List ℚ :=
  copyToBuffer wavelengths 0 buf

/-- Spectrometer.cpp `getDetectorTemperatureRaw()`: `data` is the byte list
    returned by `getCmd(0xd7)`; fewer than 2 bytes is the sentinel -1, else
    the big-endian word `(data[0] << 8) | data[1]`. -/
def getDetectorTemperatureRaw (data : List Nat) : Int :=
  if data.length < 2 then -1
  else (((data.getD 0 0) <<< 8) ||| data.getD 1 0 : Nat)

/-- Spectrometer.cpp `getDetectorTemperatureDegC()` as actually written.
    The failure branch returns -999.  On the success branch the source reads
    `uint16_t raw = (uint16_t) raw;` — initializing the local from its own
    indeterminate value instead of from `rawOrError` — computes `degC` from
    that indeterminate value and then reaches the end of the float-returning
    function with no return statement, so no defined value is produced.
    The success branch is therefore modeled as `none`. -/
def getDetectorTemperatureDegC (data : List Nat) : Option Int :=
  if getDetectorTemperatureRaw data < 0 then some (-999)
  else none

/-- One iteration's worth of input to the getSpectrum bulk-read loop: the
    value `usb_bulk_read` returned and the bytes it placed in the buffer
    (meaningful only when the count is positive). -/
structure BulkRead where
  bytesRead : Int
  bytes : List Nat

/-- The pixel-decode loop of getSpectrum:
    `for (i = 0; i + 1 < bytesRead; i += 2) push(buf[i] | (buf[i+1] << 8))`,
    over the bytes of one bulk read: consecutive byte pairs become
    little-endian 16-bit pixels; a trailing odd byte is ignored. -/
def decodePixels : List Nat → List Nat
  | b0 :: b1 :: rest => (b0 ||| (b1 <<< 8)) :: decodePixels rest
  | _ => []

/-- The accumulation loop of getSpectrum
    (`while (totalBytesRead < bytesExpected) { ... }`): each iteration
    consumes the next bulk read; a nonpositive byte count breaks out, an odd
    byte count breaks out, otherwise the first `bytesRead` buffer bytes are
    decoded and appended.  The trace lists the successive bulk-read results;
    an exhausted trace ends the loop like a failed read would. -/
def readLoop (bytesExpected : Nat) : Nat → List Nat → List BulkRead → List Nat
  | _, spectrum, [] => spectrum
  | totalBytesRead, spectrum, r :: rest =>
    if bytesExpected ≤ totalBytesRead then spectrum
    else if r.bytesRead ≤ 0 then spectrum
    else if r.bytesRead % 2 ≠ 0 then spectrum
    else readLoop bytesExpected (totalBytesRead + r.bytesRead.toNat)
      (spectrum ++ decodePixels (List.take r.bytesRead.toNat r.bytes)) rest

/-- The spectrum accumulated by getSpectrum's read loop, before
    post-processing: `bytesExpected = pixels * 2`, starting from zero bytes
    and an empty vector. -/
def getSpectrumPixels (pixels : Nat) (trace : List BulkRead) : List Nat :=
  readLoop (pixels * 2) 0 [] trace

/-- Spectrometer.cpp `getSpectrum()`: run the read loop; an empty vector is
    returned as-is, otherwise the first pixel is stomped with the second
    (`spectrum[0] = spectrum[1]` — the source indexes position 1 with no
    bounds check, which claim C10 examines; `getD` supplies 0 where the
    source would read past the end). -/
def getSpectrum (pixels : Nat) (trace : List BulkRead) : List Nat :=
  let spectrum := getSpectrumPixels pixels trace
  if spectrum = [] then spectrum
  else spectrum.set 0 (spectrum.getD 1 0)

/-- Masking with 0xff keeps a byte-sized value unchanged. -/
lemma and_255_eq_self {n : Nat} (h : n < 256) : n &&& 0xff = n := by
  have h255 : (0xff : Nat) = 2 ^ 8 - 1 := by norm_num
  rw [h255, Nat.and_pow_two_sub_one_eq_mod]
  exact Nat.mod_eq_of_lt (by norm_num [h])

/-- A left shift or-ed with a value that fits below the shift is addition. -/
lemma shiftLeft_lor_eq_add (k : Nat) :
    ∀ a b : Nat, b < 2 ^ k → (a <<< k) ||| b = a * 2 ^ k + b := by
  induction k with
  | zero =>
    intro a b hb
    have hb0 : b = 0 := by omega
    subst hb0
    simp [Nat.shiftLeft_zero]
  | succ k ih =>
    intro a b hb
    have hb2 : b / 2 < 2 ^ k := by
      have := Nat.pow_succ 2 k
      omega
    have hL : a <<< (k + 1) = Nat.bit false (a <<< k) := by
      simp only [Nat.shiftLeft_eq, Nat.bit_val, Bool.toNat_false, Nat.pow_succ]
      ring
    have hR : b = Nat.bit (Nat.bodd b) (Nat.div2 b) := (Nat.bit_decomp b).symm
    calc a <<< (k + 1) ||| b
        = Nat.bit false (a <<< k) ||| Nat.bit (Nat.bodd b) (Nat.div2 b) := by
          rw [← hL, ← hR]
      _ = Nat.bit (false || Nat.bodd b) ((a <<< k) ||| Nat.div2 b) := Nat.lor_bit _ _ _ _
      _ = Nat.bit (Nat.bodd b) (a * 2 ^ k + b / 2) := by
          rw [Bool.false_or, Nat.div2_val, ih a (b / 2) hb2]
      _ = a * 2 ^ (k + 1) + b := by
          rw [Nat.bit_val]
          have hbd : (Nat.bodd b).toNat + 2 * Nat.div2 b = b := Nat.bodd_add_div2 b
          rw [Nat.div2_val] at hbd
          have hpow : a * 2 ^ (k + 1) = 2 * (a * 2 ^ k) := by
            rw [Nat.pow_succ]
            ring
          omega

/-- When the source fits, the copy loop reports WP_SUCCESS and writes the
    source over positions i, i+1, ... of the buffer. -/
lemma copyToBuffer_success {α : Type} :
    ∀ (s : List α) (i : Nat) (buf : List α), i + s.length ≤ buf.length →
      copyToBuffer s i buf
        = (WP_SUCCESS, buf.take i ++ s ++ buf.drop (i + s.length)) := by
  intro s
  induction s with
  | nil =>
    intro i buf h
    simp [copyToBuffer, List.take_append_drop]
  | cons x xs ih =>
    intro i buf h
    have hi : i < buf.length := by
      simp only [List.length_cons] at h
      omega
    have hfits : (i + 1) + xs.length ≤ (buf.set i x).length := by
      simp only [List.length_set, List.length_cons] at h ⊢
      omega
    simp only [copyToBuffer, if_pos hi]
    rw [ih (i + 1) (buf.set i x) hfits]
    have hset : buf.set i x = buf.take i ++ x :: buf.drop (i + 1) := by
      rw [List.set_eq_take_append_cons_drop, if_pos hi]
    have htake : (buf.set i x).take (i + 1) = buf.take i ++ [x] := by
      rw [hset, List.take_append_eq_append_take]
      have h1 : (buf.take i).length = i := by
        rw [List.length_take]
        omega
      rw [h1]
      have h2 : (buf.take i).take (i + 1) = buf.take i := by
        rw [List.take_take]
        congr 1
        omega
      have h3 : i + 1 - i = 1 := by omega
      rw [h2, h3]
      simp
    have hdrop : (buf.set i x).drop (i + 1 + xs.length) = buf.drop (i + 1 + xs.length) :=
      List.drop_set_of_lt x buf (by omega)
    have hidx : i + (x :: xs).length = i + 1 + xs.length := by
      simp only [List.length_cons]
      omega
    rw [htake, hdrop, hidx]
    simp

/-- When the source is nonempty and does not fit, the copy loop reports the
    distinct insufficient-storage code. -/
lemma copyToBuffer_insufficient {α : Type} :
    ∀ (s : List α) (i : Nat) (buf : List α),
      buf.length < i + s.length → s ≠ [] →
      (copyToBuffer s i buf).1 = WP_ERROR_INSUFFICIENT_STORAGE := by
  intro s
  induction s with
  | nil =>
    intro i buf h hne
    exact absurd rfl hne
  | cons x xs ih =>
    intro i buf h hne
    by_cases hi : i < buf.length
    · have hxs : xs ≠ [] := by
        intro h0
        subst h0
        simp only [List.length_cons, List.length_nil] at h
        omega
      simp only [copyToBuffer, if_pos hi]
      apply ih
      · simp only [List.length_set, List.length_cons] at h ⊢
        omega
      · exact hxs
    · simp only [copyToBuffer, if_neg hi]

/-- The read loop only ever appends to the spectrum accumulated so far. -/
lemma readLoop_append (bytesExpected : Nat) :
    ∀ (trace : List BulkRead) (total : Nat) (spectrum : List Nat),
      ∃ tail, readLoop bytesExpected total spectrum trace = spectrum ++ tail := by
  intro trace
  induction trace with
  | nil =>
    intro t sp
    exact ⟨[], by simp [readLoop]⟩
  | cons r rest ih =>
    intro t sp
    by_cases h1 : bytesExpected ≤ t
    · exact ⟨[], by simp [readLoop, h1]⟩
    · by_cases h2 : r.bytesRead ≤ 0
      · exact ⟨[], by simp [readLoop, h1, h2]⟩
      · by_cases h3 : r.bytesRead % 2 ≠ 0
        · exact ⟨[], by simp [readLoop, h1, h2, h3]⟩
        · obtain ⟨tail, htail⟩ := ih (t + r.bytesRead.toNat)
            (sp ++ decodePixels (List.take r.bytesRead.toNat r.bytes))
          refine ⟨decodePixels (List.take r.bytesRead.toNat r.bytes) ++ tail, ?_⟩
          simp only [readLoop, if_neg h1, if_neg h2, if_neg h3]
          rw [htail]
          simp

/-- Decoding at least one full byte pair yields at least one pixel. -/
lemma decodePixels_ne_nil {l : List Nat} (h : 2 ≤ l.length) :
    decodePixels l ≠ [] := by
  match l with
  | [] => simp at h
  | [a] => simp at h
  | a :: b :: t => simp [decodePixels]

end WasatchVCPP

namespace WasatchVCPP

/-- C2: the claim says `getDetectorTemperatureDegC` applies the calibration
    polynomial to the raw big-endian reading and returns that value, with
    sentinel -999 on read failure.  The raw read and the -999 sentinel behave
    as claimed, but on a successful 2-byte read (here bytes 0x12 0x34, raw
    0x1234) the function produces no defined value at all: it casts an
    uninitialized local to itself and falls off the end without a return. -/
theorem C2_temperature_bug :
    getDetectorTemperatureRaw [0x12, 0x34] = 0x1234 ∧
    getDetectorTemperatureDegC [0x12, 0x34] = none ∧
    getDetectorTemperatureDegC [0x42] = some (-999) := by
  decide

/-- C3 counterexample: the claim says a negative control-transfer result is
    recovered into a failure result at the operation boundary.  With transfer
    result -1, `setIntegrationTimeMS` and `setLaserEnable` still report
    success, because `isSuccess` ignores the transfer result. -/
theorem C3_failure_reported_as_success :
    (setIntegrationTimeMS 100 (-1)).ok = true ∧
    (setLaserEnable true (-1)).2 = true ∧
    isSuccess 0xb2 (-1) = true := by
  decide

/-- C3 amended: the boolean reported at the operation boundary is success for
    every transfer outcome, favourable or not — `isSuccess` discards its
    result argument — and the settors always return a defined boolean, so a
    transfer failure is never propagated as an uncaught fault. -/
theorem C3_result_ignores_transfer_outcome (ms : Nat) (flag : Bool) (r r' r'' : Int)
    (op : Nat) :
    (setIntegrationTimeMS ms r).ok = true ∧
    (setLaserEnable flag r').2 = true ∧
    isSuccess op r'' = true := by
  exact ⟨rfl, rfl, rfl⟩

/-- C4: an integration-time input outside [1, 2^24 - 1] is stored as the
    nearer clamped bound, never as the raw input, and the clamped 24-bit value
    is encoded as the 16-bit low word and the 8-bit-significant high word. -/
theorem C4_integration_time_clamped (ms : Nat) (r : Int)
    (h : ms < 1 ∨ MAX_UINT24 - 1 < ms) :
    (setIntegrationTimeMS ms r).integrationTimeMS
        = (if ms < 1 then 1 else MAX_UINT24 - 1) ∧
    (setIntegrationTimeMS ms r).integrationTimeMS ≠ ms ∧
    (setIntegrationTimeMS ms r).lsw
        = (setIntegrationTimeMS ms r).integrationTimeMS % 65536 ∧
    (setIntegrationTimeMS ms r).msw
        = (setIntegrationTimeMS ms r).integrationTimeMS / 65536 ∧
    (setIntegrationTimeMS ms r).msw < 256 := by
  rcases h with h | h
  · have hms : ms = 0 := by omega
    subst hms
    refine ⟨?_, ?_, ?_, ?_, ?_⟩
    · show clamp 0 1 (MAX_UINT24 - 1) = if (0 : Nat) < 1 then 1 else MAX_UINT24 - 1
      decide
    · show clamp 0 1 (MAX_UINT24 - 1) ≠ 0
      decide
    · show clamp 0 1 (MAX_UINT24 - 1) &&& 0xffff = clamp 0 1 (MAX_UINT24 - 1) % 65536
      decide
    · show (clamp 0 1 (MAX_UINT24 - 1) >>> 16) &&& 0x00ff
          = clamp 0 1 (MAX_UINT24 - 1) / 65536
      decide
    · show (clamp 0 1 (MAX_UINT24 - 1) >>> 16) &&& 0x00ff < 256
      decide
  · have hM : MAX_UINT24 = 16777216 := rfl
    have h' : 16777215 < ms := by omega
    have hclamp : clamp ms 1 (MAX_UINT24 - 1) = MAX_UINT24 - 1 := by
      unfold clamp
      rw [if_neg (by omega), if_pos h]
    refine ⟨?_, ?_, ?_, ?_, ?_⟩
    · show clamp ms 1 (MAX_UINT24 - 1) = if ms < 1 then 1 else MAX_UINT24 - 1
      rw [hclamp, if_neg (by omega)]
    · show clamp ms 1 (MAX_UINT24 - 1) ≠ ms
      rw [hclamp]
      omega
    · show clamp ms 1 (MAX_UINT24 - 1) &&& 0xffff = clamp ms 1 (MAX_UINT24 - 1) % 65536
      rw [hclamp]
      decide
    · show (clamp ms 1 (MAX_UINT24 - 1) >>> 16) &&& 0x00ff
          = clamp ms 1 (MAX_UINT24 - 1) / 65536
      rw [hclamp]
      decide
    · show (clamp ms 1 (MAX_UINT24 - 1) >>> 16) &&& 0x00ff < 256
      rw [hclamp]
      decide

/-- C4 witness: the theorem instantiated at the out-of-range inputs 0 and
    99999999 (above 2^24 - 1). -/
theorem C4_integration_time_clamped_witness :
    ((setIntegrationTimeMS 0 0).integrationTimeMS
        = (if 0 < 1 then 1 else MAX_UINT24 - 1) ∧
     (setIntegrationTimeMS 0 0).integrationTimeMS ≠ 0 ∧
     (setIntegrationTimeMS 0 0).lsw
        = (setIntegrationTimeMS 0 0).integrationTimeMS % 65536 ∧
     (setIntegrationTimeMS 0 0).msw
        = (setIntegrationTimeMS 0 0).integrationTimeMS / 65536 ∧
     (setIntegrationTimeMS 0 0).msw < 256) ∧
    ((setIntegrationTimeMS 99999999 0).integrationTimeMS
        = (if 99999999 < 1 then 1 else MAX_UINT24 - 1) ∧
     (setIntegrationTimeMS 99999999 0).integrationTimeMS ≠ 99999999 ∧
     (setIntegrationTimeMS 99999999 0).lsw
        = (setIntegrationTimeMS 99999999 0).integrationTimeMS % 65536 ∧
     (setIntegrationTimeMS 99999999 0).msw
        = (setIntegrationTimeMS 99999999 0).integrationTimeMS / 65536 ∧
     (setIntegrationTimeMS 99999999 0).msw < 256) :=
  ⟨C4_integration_time_clamped 0 0 (Or.inl (by decide)),
   C4_integration_time_clamped 99999999 0 (Or.inr (by decide))⟩

/-- C5 counterexample: at gain value 1/512 the source truncates the low byte
    to 0 and sends word 0x0000, while the spec's claimed encoding — low byte
    `round((value - intPart) * 256) = round(1/2)` — yields word 0x0001. -/
theorem C5_low_byte_truncated_not_rounded :
    setDetectorGain (1 / 512) = some 0 ∧
    gainWordSpecClaim (1 / 512) = 1 ∧
    gainWord (1 / 512) ≠ gainWordSpecClaim (1 / 512) := by
  have hfl : ⌊(1 / 512 : ℚ)⌋ = 0 := by
    rw [Int.floor_eq_zero_iff]
    constructor <;> norm_num
  have harg : ((1 : ℚ) / 512 - ((Int.toNat 0 &&& 0xff : Nat) : ℚ)) * 256 = 1 / 2 := by
    norm_num
  have harg' : ((1 : ℚ) / 512 - ((Int.toNat 0 : Nat) : ℚ)) * 256 = 1 / 2 := by
    norm_num
  have hhalf : ⌊(1 / 2 : ℚ)⌋ = 0 := by
    rw [Int.floor_eq_zero_iff]
    constructor <;> norm_num
  have hround : round (1 / 2 : ℚ) = 1 := by
    rw [round_eq]
    norm_num
  have hA : gainWord (1 / 512) = 0 := by
    simp only [gainWord, hfl, harg, hhalf]
    decide
  have hB : gainWordSpecClaim (1 / 512) = 1 := by
    simp only [gainWordSpecClaim, hfl, harg', hround]
    decide
  refine ⟨?_, hB, ?_⟩
  · rw [setDetectorGain, if_neg (by norm_num), hA]
  · rw [hA, hB]
    decide

/-- C5 amended: in the domain [0, 256) the gain word has the integer part in
    the high byte and the TRUNCATED fraction `floor((value - intPart) * 256)`
    in the low byte (the source casts with `(int)`, which truncates rather
    than rounds); decoding the word still recovers the value to within 1/256.
    Outside the domain both settors reject the call before any transfer. -/
theorem C5_gain_encoding (v : ℚ) :
    (0 ≤ v → v < 256 →
      setDetectorGain v = some (gainWord v) ∧
      setDetectorGainOdd v = some (gainWord v) ∧
      gainWord v = ⌊v⌋.toNat * 256 + (⌊(v - (⌊v⌋ : ℚ)) * 256⌋).toNat ∧
      gainDecode (gainWord v) ≤ v ∧
      v - gainDecode (gainWord v) < 1 / 256) ∧
    ((v < 0 ∨ 256 ≤ v) →
      setDetectorGain v = none ∧ setDetectorGainOdd v = none) := by
  constructor
  · intro h0 h256
    have hnotdom : ¬(v < 0 ∨ 256 ≤ v) := by
      push_neg
      exact ⟨h0, h256⟩
    have hfl0 : (0 : ℤ) ≤ ⌊v⌋ := Int.floor_nonneg.mpr h0
    have hfl256 : ⌊v⌋ < 256 := Int.floor_lt.mpr (by exact_mod_cast h256)
    have hmsb_lt : ⌊v⌋.toNat < 256 := by omega
    have hmsb_mask : ⌊v⌋.toNat &&& 0xff = ⌊v⌋.toNat := and_255_eq_self hmsb_lt
    have hcast : ((⌊v⌋.toNat : Nat) : ℚ) = (⌊v⌋ : ℚ) := by
      exact_mod_cast Int.toNat_of_nonneg hfl0
    have hfrac0 : 0 ≤ v - (⌊v⌋ : ℚ) := by
      have := Int.floor_le v
      linarith
    have hfrac1 : v - (⌊v⌋ : ℚ) < 1 := by
      have := Int.lt_floor_add_one v
      linarith
    have hL0 : (0 : ℤ) ≤ ⌊(v - (⌊v⌋ : ℚ)) * 256⌋ :=
      Int.floor_nonneg.mpr (by nlinarith)
    have hL256 : ⌊(v - (⌊v⌋ : ℚ)) * 256⌋ < 256 :=
      Int.floor_lt.mpr (by push_cast; nlinarith)
    have hlsb_lt : (⌊(v - (⌊v⌋ : ℚ)) * 256⌋).toNat < 256 := by omega
    have hlsb_mask : (⌊(v - (⌊v⌋ : ℚ)) * 256⌋).toNat &&& 0xff
        = (⌊(v - (⌊v⌋ : ℚ)) * 256⌋).toNat :=
      and_255_eq_self hlsb_lt
    have h28 : (2 : Nat) ^ 8 = 256 := by norm_num
    have hword : gainWord v = ⌊v⌋.toNat * 256 + (⌊(v - (⌊v⌋ : ℚ)) * 256⌋).toNat := by
      simp only [gainWord, hmsb_mask, hcast, hlsb_mask]
      have hadd := shiftLeft_lor_eq_add 8 ⌊v⌋.toNat (⌊(v - (⌊v⌋ : ℚ)) * 256⌋).toNat
        (by rw [h28]; exact hlsb_lt)
      rw [h28] at hadd
      exact hadd
    have hLle : ((⌊(v - (⌊v⌋ : ℚ)) * 256⌋ : ℤ) : ℚ) ≤ (v - (⌊v⌋ : ℚ)) * 256 :=
      Int.floor_le _
    have hLgt : (v - (⌊v⌋ : ℚ)) * 256 < (⌊(v - (⌊v⌋ : ℚ)) * 256⌋ : ℚ) + 1 :=
      Int.lt_floor_add_one _
    have hdecode : gainDecode (gainWord v)
        = (⌊v⌋ : ℚ) + ((⌊(v - (⌊v⌋ : ℚ)) * 256⌋ : ℤ) : ℚ) / 256 := by
      rw [hword]
      unfold gainDecode
      have hdiv : (⌊v⌋.toNat * 256 + (⌊(v - (⌊v⌋ : ℚ)) * 256⌋).toNat) >>> 8
          = ⌊v⌋.toNat := by
        rw [Nat.shiftRight_eq_div_pow]
        omega
      have hmod : (⌊v⌋.toNat * 256 + (⌊(v - (⌊v⌋ : ℚ)) * 256⌋).toNat) &&& 0xff
          = (⌊(v - (⌊v⌋ : ℚ)) * 256⌋).toNat := by
        have h255 : (0xff : Nat) = 2 ^ 8 - 1 := by norm_num
        rw [h255, Nat.and_pow_two_sub_one_eq_mod]
        omega
      rw [hdiv, hmod, hcast]
      congr 1
      congr 1
      exact_mod_cast Int.toNat_of_nonneg hL0
    refine ⟨?_, ?_, hword, ?_, ?_⟩
    · rw [setDetectorGain, if_neg hnotdom]
    · rw [setDetectorGainOdd, if_neg hnotdom]
    · rw [hdecode]
      linarith
    · rw [hdecode]
      linarith
  · intro h
    exact ⟨by rw [setDetectorGain, if_pos h], by rw [setDetectorGainOdd, if_pos h]⟩

/-- C5 witness: the amended theorem instantiated at the in-domain value 3/2
    and the out-of-domain value 300. -/
theorem C5_gain_encoding_witness :
    (setDetectorGain (3 / 2) = some (gainWord (3 / 2)) ∧
     setDetectorGainOdd (3 / 2) = some (gainWord (3 / 2)) ∧
     gainWord (3 / 2) = ⌊(3 / 2 : ℚ)⌋.toNat * 256
        + (⌊((3 / 2 : ℚ) - (⌊(3 / 2 : ℚ)⌋ : ℚ)) * 256⌋).toNat ∧
     gainDecode (gainWord (3 / 2)) ≤ 3 / 2 ∧
     (3 / 2 : ℚ) - gainDecode (gainWord (3 / 2)) < 1 / 256) ∧
    (setDetectorGain 300 = none ∧ setDetectorGainOdd 300 = none) :=
  ⟨(C5_gain_encoding (3 / 2)).1 (by norm_num) (by norm_num),
   (C5_gain_encoding 300).2 (Or.inr (by norm_num))⟩

/-- C6: for every signed 16-bit offset the transmitted word is the two's
    complement bit pattern of the input: the input itself when nonnegative,
    the input plus 2^16 when negative; equivalently the unique value below
    2^16 congruent to the input mod 2^16.  Both settors transmit the same
    word. -/
theorem C6_offset_twos_complement (v r r' : Int)
    (h1 : -32768 ≤ v) (h2 : v ≤ 32767) :
    (setDetectorOffset v r).1 = (if 0 ≤ v then v else v + 65536).toNat ∧
    (setDetectorOffsetOdd v r').1 = (setDetectorOffset v r).1 ∧
    ((setDetectorOffset v r).1 : Int) % 65536 = v % 65536 ∧
    (setDetectorOffset v r).1 < 65536 := by
  refine ⟨?_, rfl, ?_, ?_⟩
  · show (v % 65536).toNat = (if 0 ≤ v then v else v + 65536).toNat
    split_ifs <;> omega
  · show (((v % 65536).toNat : Int)) % 65536 = v % 65536
    omega
  · show (v % 65536).toNat < 65536
    omega

/-- C6 witness: the boundary values from the claim, -1 ↦ 0xFFFF, 0 ↦ 0x0000
    and 32767 ↦ 0x7FFF. -/
theorem C6_offset_twos_complement_witness :
    (setDetectorOffset (-1) 0).1 = 0xFFFF ∧
    (setDetectorOffset 0 0).1 = 0x0000 ∧
    (setDetectorOffset 32767 0).1 = 0x7FFF :=
  ⟨((C6_offset_twos_complement (-1) 0 0 (by decide) (by decide)).1).trans (by decide),
   ((C6_offset_twos_complement 0 0 0 (by decide) (by decide)).1).trans (by decide),
   ((C6_offset_twos_complement 32767 0 0 (by decide) (by decide)).1).trans (by decide)⟩

/-- C7: `setTECEnable` fails with no transfer at all when the calibration
    record has no cooling capability, and when the setpoint gate is still
    unset (and the calibrated range is nonempty) it sends a setpoint transfer
    driving the setpoint to the calibrated minimum before the enable
    transfer. -/
theorem C7_tec_enable_defaults_setpoint (st : TECState) (flag : Bool) :
    (st.eeprom.hasCooling = false → setTECEnable st flag = (false, st)) ∧
    (st.eeprom.hasCooling = true →
     st.detectorTECSetpointHasBeenSet = false →
     st.eeprom.minTemperatureDegC ≤ st.eeprom.maxTemperatureDegC →
       (setTECEnable st flag).1 = true ∧
       (setTECEnable st flag).2.transfers
         = st.transfers
           ++ [(0xd8, tecDACWord st.eeprom st.eeprom.minTemperatureDegC),
               (0xd6, if flag then 1 else 0)]) := by
  constructor
  · intro h
    simp [setTECEnable, h]
  · intro hc hgate hle
    have hlt1 : ¬st.eeprom.minTemperatureDegC < st.eeprom.minTemperatureDegC :=
      lt_irrefl _
    have hlt2 : ¬st.eeprom.maxTemperatureDegC < st.eeprom.minTemperatureDegC :=
      not_lt.mpr hle
    simp [setTECEnable, setDetectorTECSetpointDegC, hc, hgate, hlt1, hlt2, isSuccess]

/-- C7 witness: a cooling-incapable record rejects the enable with no
    transfer, and a cooling-capable record with the gate unset sends the
    minimum-setpoint transfer before the enable transfer. -/
theorem C7_tec_enable_defaults_setpoint_witness :
    (setTECEnable ⟨⟨false, 10, 40, 0, 1, 0⟩, false, []⟩ true
        = (false, ⟨⟨false, 10, 40, 0, 1, 0⟩, false, []⟩)) ∧
    ((setTECEnable ⟨⟨true, 10, 40, 0, 1, 0⟩, false, []⟩ true).1 = true ∧
     (setTECEnable ⟨⟨true, 10, 40, 0, 1, 0⟩, false, []⟩ true).2.transfers
        = [] ++ [(0xd8, tecDACWord ⟨true, 10, 40, 0, 1, 0⟩ 10), (0xd6, 1)]) := by
  constructor
  · exact (C7_tec_enable_defaults_setpoint ⟨⟨false, 10, 40, 0, 1, 0⟩, false, []⟩ true).1 rfl
  · have h := (C7_tec_enable_defaults_setpoint ⟨⟨true, 10, 40, 0, 1, 0⟩, false, []⟩ true).2
      rfl rfl (by norm_num)
    exact ⟨h.1, h.2⟩

/-- C8: an ARM send with no explicit payload substitutes a zero-filled
    8-byte buffer instead of a zero-length transfer; an ARM receive floors
    the requested length to the same 8-byte minimum even when the caller
    asks for fewer; and for every family a get transfer returning a
    nonpositive byte count yields the empty byte list, not a fault. -/
theorem C8_arm_padding_and_empty_get (len : Nat) (isARM : Bool)
    (transfer : Nat → Int × (Nat → Nat)) :
    sendCmdPayload true none = List.replicate MIN_ARM_LEN 0 ∧
    MIN_ARM_LEN ≤ getCmdRequestLen true len ∧
    (len ≤ MIN_ARM_LEN → getCmdRequestLen true len = MIN_ARM_LEN) ∧
    ((transfer (getCmdRequestLen isARM len)).1 ≤ 0 →
      getCmd isARM len transfer = []) := by
  refine ⟨rfl, ?_, ?_, ?_⟩
  · show MIN_ARM_LEN ≤ max MIN_ARM_LEN len
    exact le_max_left _ _
  · intro h
    show max MIN_ARM_LEN len = MIN_ARM_LEN
    exact max_eq_left h
  · intro h
    unfold getCmd getCmdResult
    rw [Int.toNat_eq_zero.mpr h]
    simp

/-- C8 witness: the theorem at requested length 2 on the ARM family with a
    transfer that fails with -1. -/
theorem C8_arm_padding_and_empty_get_witness :
    sendCmdPayload true none = List.replicate MIN_ARM_LEN 0 ∧
    MIN_ARM_LEN ≤ getCmdRequestLen true 2 ∧
    getCmdRequestLen true 2 = MIN_ARM_LEN ∧
    getCmd true 2 (fun _ => (-1, fun _ => 0)) = [] := by
  obtain ⟨h1, h2, h3, h4⟩ :=
    C8_arm_padding_and_empty_get 2 true (fun _ => (-1, fun _ => 0))
  exact ⟨h1, h2, h3 (by decide), h4 (by decide)⟩

/-- C9: a boundary getter copying into a caller buffer of declared length
    returns the distinct insufficient-output-space code when the exported
    value is longer than the buffer, and success with the value copied when
    it fits; the insufficient-storage code is distinct from both generic
    failure and success. -/
theorem C9_boundary_export (s : List Nat) (len : Nat) (wl : List ℚ)
    (buf : List ℚ) :
    (len < s.length →
      (exportString s len).1 = WP_ERROR_INSUFFICIENT_STORAGE) ∧
    (s.length ≤ len →
      exportString s len = (WP_SUCCESS, s ++ List.replicate (len - s.length) 0)) ∧
    (buf.length < wl.length →
      (wp_get_wavelengths wl buf).1 = WP_ERROR_INSUFFICIENT_STORAGE) ∧
    (wl.length ≤ buf.length →
      wp_get_wavelengths wl buf = (WP_SUCCESS, wl ++ buf.drop wl.length)) ∧
    WP_ERROR_INSUFFICIENT_STORAGE ≠ WP_ERROR ∧
    WP_ERROR_INSUFFICIENT_STORAGE ≠ WP_SUCCESS := by
  refine ⟨?_, ?_, ?_, ?_, by decide, by decide⟩
  · intro h
    apply copyToBuffer_insufficient
    · simpa using h
    · exact List.length_pos.mp (by omega)
  · intro h
    have hcopy := copyToBuffer_success s 0 (List.replicate len 0) (by simpa using h)
    rw [exportString, hcopy]
    simp [List.drop_replicate]
  · intro h
    apply copyToBuffer_insufficient
    · simpa using h
    · exact List.length_pos.mp (by omega)
  · intro h
    have hcopy := copyToBuffer_success wl 0 buf (by simpa using h)
    rw [wp_get_wavelengths, hcopy]
    simp

/-- C9 witness: a three-character value into buffers of length 2
    (insufficient) and 5 (success, zero padded), and a two-entry wavelength
    array into buffers of length 1 (insufficient) and 3 (success). -/
theorem C9_boundary_export_witness :
    (exportString [7, 8, 9] 2).1 = WP_ERROR_INSUFFICIENT_STORAGE ∧
    exportString [7, 8, 9] 5
      = (WP_SUCCESS, [7, 8, 9] ++ List.replicate (5 - [7, 8, 9].length) 0) ∧
    (wp_get_wavelengths [1, 2] [0]).1 = WP_ERROR_INSUFFICIENT_STORAGE ∧
    wp_get_wavelengths [1, 2] [0, 0, 0]
      = (WP_SUCCESS, [1, 2] ++ [(0 : ℚ), 0, 0].drop [(1 : ℚ), 2].length) := by
  refine ⟨?_, ?_, ?_, ?_⟩
  · exact (C9_boundary_export [7, 8, 9] 2 [] []).1 (by decide)
  · exact (C9_boundary_export [7, 8, 9] 5 [] []).2.1 (by decide)
  · exact (C9_boundary_export [] 0 [1, 2] [0]).2.2.1 (by decide)
  · exact (C9_boundary_export [] 0 [1, 2] [0, 0, 0]).2.2.2.1 (by decide)

/-- C1 counterexample: with 4 expected pixels (8 bytes), the first bulk read
    delivers 4 bytes and the second returns 0 before the 8 bytes have
    accumulated — yet getSpectrum returns the two decoded pixels (first one
    stomped), not the empty sequence the claim demands. -/
theorem C1_partial_data_returned :
    getSpectrum 4 [⟨4, [10, 0, 20, 0]⟩, ⟨0, []⟩] ≠ [] ∧
    getSpectrum 4 [⟨4, [10, 0, 20, 0]⟩, ⟨0, []⟩] = [20, 20] := by
  constructor <;> decide

/-- C1 amended: getSpectrum returns the empty sequence when the FIRST bulk
    read aborts the loop (nonpositive or odd byte count); once the first
    read succeeds, pixels decoded before any later aborting read are kept,
    and the returned sequence is nonempty however the later reads fail. -/
theorem C1_empty_only_when_first_read_fails (pixels : Nat) (r : BulkRead)
    (rest : List BulkRead) (hpix : 0 < pixels) :
    ((r.bytesRead ≤ 0 ∨ r.bytesRead % 2 ≠ 0) →
      getSpectrum pixels (r :: rest) = []) ∧
    (0 < r.bytesRead → r.bytesRead % 2 = 0 →
     r.bytesRead.toNat ≤ r.bytes.length →
      getSpectrum pixels (r :: rest) ≠ []) := by
  have hnot : ¬pixels * 2 ≤ 0 := by omega
  constructor
  · intro h
    rcases h with h | h
    · simp [getSpectrum, getSpectrumPixels, readLoop, hnot, h]
    · by_cases h2 : r.bytesRead ≤ 0
      · simp [getSpectrum, getSpectrumPixels, readLoop, hnot, h2]
      · simp [getSpectrum, getSpectrumPixels, readLoop, hnot, h2, h]
  · intro hpos heven hlen
    have h2 : ¬r.bytesRead ≤ 0 := not_le.mpr hpos
    have h3 : ¬r.bytesRead % 2 ≠ 0 := by simp [heven]
    have htwo : 2 ≤ r.bytesRead.toNat := by omega
    have htakelen : 2 ≤ (List.take r.bytesRead.toNat r.bytes).length := by
      rw [List.length_take]
      omega
    have hdec : decodePixels (List.take r.bytesRead.toNat r.bytes) ≠ [] :=
      decodePixels_ne_nil htakelen
    obtain ⟨tail, htail⟩ := readLoop_append (pixels * 2) rest (0 + r.bytesRead.toNat)
      ([] ++ decodePixels (List.take r.bytesRead.toNat r.bytes))
    have hspec : getSpectrumPixels pixels (r :: rest)
        = decodePixels (List.take r.bytesRead.toNat r.bytes) ++ tail := by
      unfold getSpectrumPixels
      rw [readLoop, if_neg hnot, if_neg h2, if_neg h3, htail]
      simp
    have hne : getSpectrumPixels pixels (r :: rest) ≠ [] := by
      rw [hspec]
      intro hcontra
      exact hdec (List.append_eq_nil.mp hcontra).1
    simp only [getSpectrum, if_neg hne]
    intro hcontra
    apply hne
    have hlen0 := congrArg List.length hcontra
    rw [List.length_set] at hlen0
    exact List.length_eq_zero.mp hlen0

/-- C1 witness: an odd first read yields the empty sequence; a successful
    one-pixel first read followed by a failing read yields a nonempty
    sequence. -/
theorem C1_empty_only_when_first_read_fails_witness :
    getSpectrum 4 [⟨3, [1, 2, 3]⟩] = [] ∧
    getSpectrum 4 [⟨2, [10, 0]⟩, ⟨-1, []⟩] ≠ [] :=
  ⟨(C1_empty_only_when_first_read_fails 4 ⟨3, [1, 2, 3]⟩ [] (by decide)).1
      (Or.inr (by decide)),
   (C1_empty_only_when_first_read_fails 4 ⟨2, [10, 0]⟩ [⟨-1, []⟩] (by decide)).2
      (by decide) (by decide) (by decide)⟩

/-- C10: the implicit bounds-safety claim fails on the code — the read loop
    can end with a nonempty spectrum of exactly one pixel (a 2-byte first
    read, then a read returning 0 before pixels*2 bytes have accumulated),
    so the unconditional `spectrum[0] = spectrum[1]` reads index 1 of a
    one-element vector, past its end. -/
theorem C10_single_pixel_spectrum :
    getSpectrumPixels 2 [⟨2, [10, 0]⟩, ⟨0, []⟩] = [10] ∧
    getSpectrumPixels 2 [⟨2, [10, 0]⟩, ⟨0, []⟩] ≠ [] ∧
    (getSpectrumPixels 2 [⟨2, [10, 0]⟩, ⟨0, []⟩]).length < 2 := by
  refine ⟨by decide, by decide, by decide⟩

end WasatchVCPP
